import Mathlib

/-!
Shallow embedding of `src/submit_SGE/submit_SGE.py` (class `SubmitSGE`) and
verification of its specified behaviour.  External effects are made explicit:
queue listings are passed in as the list of output lines that `readlines()`
would return, successive calls to the queue inspectors are modelled by a
stream of counts indexed by a poll clock, and loops that sleep between polls
are run with an explicit fuel bound (the source loops are unbounded; `none`
means the loop did not finish within the given number of iterations, and in
particular performed no submission in them).
-/

namespace SubmitSGE

/-- Helper for Python substring search: `startsWithL pat s` is true when
`pat` is an initial segment of `s` (character lists). -/
def startsWithL : List Char → List Char → Bool
  | [], _ => true
  | _ :: _, [] => false
  | p :: ps, c :: cs => p == c && startsWithL ps cs

/-- Helper for Python substring search: `containsSub pat s` is true when
`pat` occurs contiguously somewhere inside `s`. -/
def containsSub (pat : List Char) : List Char → Bool
  | [] => pat.isEmpty
  | c :: cs => startsWithL pat (c :: cs) || containsSub pat cs

/-- Embeds the Python test `line.find(fragment) > -1` used at line 85 of
`submit_SGE.py`: true exactly when `fragment` occurs in `line`. -/
def pyFindHit (line fragment : String) : Bool :=
  containsSub fragment.data line.data

/-- Embeds `SubmitSGE.get_jobs_in_queue` (lines 38-60): the listing returned
by the `qstat` call is passed in as its list of output lines.  The source
counts the lines and, if the count is positive, subtracts the two header
rows; there is no flooring at zero, and Python integers are modelled by
`Int`. -/
def get_jobs_in_queue (lines : List String) : Int :=
  let jobNumber : Int := (lines.length : Int)
  if jobNumber > 0 then jobNumber - 2 else jobNumber

/-- Embeds the command string built by `get_jobs_in_queue` (lines 48-50).
The Python guard `self.queue_name is not ""` is modelled as inequality with
the empty string (CPython interns the empty string, so identity and equality
coincide there).  Note the source appends `"-q "` with no separating space. -/
def qstat_total_command (username queueName : String) : String :=
  let stat := "qstat -u " ++ username
  if queueName ≠ "" then stat ++ ("-q " ++ queueName) else stat

/-- Embeds the command string built by `get_jobs_in_queue_name`
(lines 76-78); here the source does leave a space before `-q` because the
preceding literal `" -xml "` ends in one. -/
def qstat_name_command (username queueName : String) : String :=
  let stat := "qstat -u " ++ username ++ " -xml "
  if queueName ≠ "" then stat ++ ("-q " ++ queueName) else stat

/-- Embeds `SubmitSGE.get_jobs_in_queue_name` (lines 62-91): iterate over the
raw output lines of the structured listing and count every line in which the
fragment occurs, exactly as the `for i in f.readlines()` loop does. -/
def get_jobs_in_queue_name (lines : List String) (nameFragment : String) : Nat :=
  lines.foldl (fun jobNumber i => if pyFindHit i nameFragment then jobNumber + 1 else jobNumber) 0

/-- External actions performed by `submit_job` (lines 93-141), in order. -/
inductive SGEAction where
  | writeScript (filename command : String)
  | callQsub (args : List String)
  | sleepSec (secs : Nat)
  | removeFile (filename : String)
deriving DecidableEq

/-- Embeds `SubmitSGE.submit_job` (lines 93-141): write the wrapper script,
invoke `qsub`, sleep one second, then remove the script.  The script body is
mechanical glue; the action records the filename and the submitted command.
The removal outcome is an input (`removeFails`); the source wraps
`os.remove` in no handler, so a failure there escapes the function: the
second component is the uncaught exception propagating out, if any, and the
first component lists the actions that were performed. -/
def submit_job (extraOptions command jobName : String) (removeFails : Bool) :
    List SGEAction × Option String :=
  let filename := "./submit_" ++ jobName ++ ".sh"
  let pre := [SGEAction.writeScript filename command,
              SGEAction.callQsub ["qsub", extraOptions, "-notify", "-N", jobName, filename],
              SGEAction.sleepSec 1]
  if removeFails then
    (pre, some ("could not remove " ++ filename))
  else
    (pre ++ [SGEAction.removeFile filename], none)

/-- The `while True` loop of `submit_job_when_ready` (lines 159-168).
`counts t` is the value the t-th call to `get_jobs_in_queue` returns.  A
result `some (t2, sleeps, subs)` means the loop finished with the poll clock
at `t2`, slept `sleeps` times for `queue_update` seconds, and performed the
submissions `subs`; `none` means no admission happened within `fuel` loop
iterations (in particular no submission was performed in them). -/
def sjwrLoop (maximumJobs : Int) (counts : Nat → Int) (command jobName : String) :
    Nat → Nat → Option (Nat × Nat × List (String × String))
  | _, 0 => none
  | t, fuel + 1 =>
    if counts t < maximumJobs then
      some (t + 1, 0, [(command, jobName)])
    else
      match sjwrLoop maximumJobs counts command jobName (t + 1) fuel with
      | none => none
      | some (t2, sleeps, subs) => some (t2, sleeps + 1, subs)

/-- Embeds `SubmitSGE.submit_job_when_ready` (lines 143-168).  The source
calls `get_jobs_in_queue` once before the loop (line 154) purely for the
verbose report, consuming `counts t`; the decision loop therefore starts
polling at clock `t + 1`.  On `some (t2, sleeps, subs)` the total number of
total-count polls made by the call is `t2 - t` (initial poll included). -/
def submit_job_when_ready (maximumJobs : Int) (counts : Nat → Int) (command jobName : String)
    (t fuel : Nat) : Option (Nat × Nat × List (String × String)) :=
  sjwrLoop maximumJobs counts command jobName (t + 1) fuel

/-- The submission loop of `submit_job_list` (lines 182-183): one
`submit_job_when_ready` call per command, in order, threading the poll
clock. -/
def sjlLoop (maximumJobs : Int) (counts : Nat → Int) (jobName : String) (fuel : Nat) :
    Nat → List String → Option (Nat × Nat × List (String × String))
  | t, [] => some (t, 0, [])
  | t, command :: rest =>
    match submit_job_when_ready maximumJobs counts command jobName t fuel with
    | none => none
    | some (t1, s1, subs1) =>
      match sjlLoop maximumJobs counts jobName fuel t1 rest with
      | none => none
      | some (t2, s2, subs2) => some (t2, s1 + s2, subs1 ++ subs2)

/-- The drain loop of `submit_job_list` (lines 185-187):
`while get_jobs_in_queue_name(job_name) > 0: sleep`.  `drainCounts t` is the
value the t-th call to `get_jobs_in_queue_name` returns (a `Nat`, since that
function counts lines).  On `some (polls, sleeps)` the loop made `polls`
name-count polls and slept `sleeps` times. -/
def drainLoop (drainCounts : Nat → Nat) : Nat → Nat → Option (Nat × Nat)
  | _, 0 => none
  | t, fuel + 1 =>
    if drainCounts t > 0 then
      match drainLoop drainCounts (t + 1) fuel with
      | none => none
      | some (polls, sleeps) => some (polls + 1, sleeps + 1)
    else
      some (1, 0)

/-- Embeds `SubmitSGE.submit_job_list` (lines 170-187): submit every command
in order, then, if `waitForCompletion`, run the drain loop.  The result is
the list of submissions performed, paired with the number of drain polls
(0 when not waiting). -/
def submit_job_list (maximumJobs : Int) (counts : Nat → Int) (drainCounts : Nat → Nat)
    (commandList : List String) (jobName : String) (waitForCompletion : Bool) (fuel : Nat) :
    Option (List (String × String) × Nat) :=
  match sjlLoop maximumJobs counts jobName fuel 0 commandList with
  | none => none
  | some (_, _, subs) =>
    if waitForCompletion then
      match drainLoop drainCounts 0 fuel with
      | none => none
      | some (polls, _) => some (subs, polls)
    else
      some (subs, 0)

/-- Stub count stream for the C1 counterexample: 5, 0, 0, 0, ... -/
def exCountsC1 : Nat → Int := fun n => if n = 0 then 5 else 0

/-- Stub count stream for the C1 witness: 3, 3, 0, 0, ... -/
def exCountsC1W : Nat → Int := fun n => if n ≤ 1 then 3 else 0

/-- Stub count stream for the C3 counterexample: the constant value that
`get_jobs_in_queue` computes on a one-line listing, namely -1. -/
def exCountsC3 : Nat → Int := fun _ => get_jobs_in_queue ["  lonely row"]

/-- Drain-count stub 2, 1, 0, 0, ... used for C5. -/
def exDrain : Nat → Nat := fun n => if n = 0 then 2 else if n = 1 then 1 else 0

/-- Concrete structured listing for C10: the shape of a `qstat -xml` output
for a single job named `alpha`. -/
def listingC10 : List String :=
  ["<?xml version=1.0?>", "<job_info>", "<queue_info>", "<job_list state=running>",
   "<JB_name>alpha</JB_name>", "</job_list>", "</job_info>"]

/-- The job names actually present in `listingC10`. -/
def jobNamesC10 : List String := ["alpha"]

lemma startsWithL_iff (pat : List Char) : ∀ s, startsWithL pat s = true ↔ ∃ v, pat ++ v = s := by
  induction pat with
  | nil =>
    intro s
    simp [startsWithL]
  | cons p ps ih =>
    intro s
    cases s with
    | nil => simp [startsWithL]
    | cons c cs =>
      simp only [startsWithL, Bool.and_eq_true, beq_iff_eq, ih, List.cons_append]
      constructor
      · rintro ⟨hpc, v, hv⟩
        exact ⟨v, by rw [hpc, hv]⟩
      · rintro ⟨v, hv⟩
        injection hv with h1 h2
        exact ⟨h1, v, h2⟩

lemma containsSub_iff (pat : List Char) : ∀ s, containsSub pat s = true ↔ ∃ u v, u ++ pat ++ v = s := by
  intro s
  induction s with
  | nil =>
    cases pat with
    | nil => simp [containsSub]
    | cons p ps => simp [containsSub]
  | cons c cs ih =>
    simp only [containsSub, Bool.or_eq_true, startsWithL_iff, ih]
    constructor
    · rintro (⟨v, hv⟩ | ⟨u, v, huv⟩)
      · exact ⟨[], v, by simpa using hv⟩
      · exact ⟨c :: u, v, by simp [← huv]⟩
    · rintro ⟨u, v, huv⟩
      cases u with
      | nil => exact Or.inl ⟨v, by simpa using huv⟩
      | cons a u2 =>
        injection huv with h1 h2
        exact Or.inr ⟨u2, v, h2⟩

lemma foldl_count_eq_filter_length (p : String → Bool) :
    ∀ (lines : List String) (n : Nat),
      List.foldl (fun jobNumber i => if p i then jobNumber + 1 else jobNumber) n lines =
        n + (List.filter p lines).length := by
  intro lines
  induction lines with
  | nil => intro n; simp
  | cons l ls ih =>
    intro n
    by_cases h : p l
    · simp only [List.foldl_cons, List.filter_cons, h, if_true, if_pos]
      rw [ih]
      simp
      omega
    · simp only [List.foldl_cons, List.filter_cons, h, if_false, if_neg]
      rw [ih]
      simp [h]

lemma get_jobs_in_queue_name_eq_filter (lines : List String) (fragment : String) :
    get_jobs_in_queue_name lines fragment =
      (List.filter (fun l => pyFindHit l fragment) lines).length := by
  unfold get_jobs_in_queue_name
  rw [foldl_count_eq_filter_length]
  simp

/-- C2 counterexample: the claim says a listing with 1 output row yields 0 and
the result is never negative; on the code a one-row listing yields -1. -/
theorem C2_counterexample :
    get_jobs_in_queue ["row1"] = -1 ∧ get_jobs_in_queue ["row1"] < 0 := by
  constructor <;> decide

/-- C2 (amended): `get_jobs_in_queue` returns 0 on an empty listing and
`rows - 2` on a non-empty one, with no flooring: the result is negative
exactly when the listing has a single row (where it is -1). -/
theorem C2_amended :
    ∀ lines : List String,
      get_jobs_in_queue lines = (if lines.length = 0 then 0 else (lines.length : Int) - 2) ∧
      (get_jobs_in_queue lines < 0 ↔ lines.length = 1) := by
  intro lines
  unfold get_jobs_in_queue
  by_cases h : lines.length = 0
  · simp [h]
  · have h1 : (0 : Int) < (lines.length : Int) := by
      exact_mod_cast Nat.pos_of_ne_zero h
    constructor
    · simp only [h, if_false, if_pos h1]
    · simp only [if_pos h1]
      omega

/-- C6: `get_jobs_in_queue_name` uses substring semantics.  A line is counted
exactly when the fragment occurs contiguously anywhere inside it, the count
is the number of such lines, and concretely the fragment `job` counts both
the entry `job_42` and the unrelated entry `myjob_overflow`, although the
latter is not equal to the fragment. -/
theorem C6_substring :
    (∀ line fragment : String,
        pyFindHit line fragment = true ↔ ∃ u v, u ++ fragment.data ++ v = line.data) ∧
    (∀ (lines : List String) (fragment : String),
        get_jobs_in_queue_name lines fragment =
          (List.filter (fun l => pyFindHit l fragment) lines).length) ∧
    get_jobs_in_queue_name ["job_42", "myjob_overflow"] "job" = 2 ∧
    (("myjob_overflow" == "job") = false) := by
  refine ⟨?_, ?_, ?_, ?_⟩
  · intro line fragment
    exact containsSub_iff fragment.data line.data
  · intro lines fragment
    exact get_jobs_in_queue_name_eq_filter lines fragment
  · rfl
  · rfl

/-- C7 counterexample: the claim says a failure to remove the script file
does not propagate out of `submit_job`; on the code the removal is not
guarded, so the failure escapes as an uncaught error. -/
theorem C7_counterexample :
    ((submit_job "" "cmd" "jn" true).2).isSome = true := by
  rfl

/-- C7 (amended): a removal failure propagates out of `submit_job` uncaught
(nothing is logged), but the `qsub` submission call has already been
performed before the removal attempt; when removal succeeds no error
escapes and the removal action is performed last. -/
theorem C7_amended :
    ∀ extraOptions command jobName : String,
      ((submit_job extraOptions command jobName true).2).isSome = true ∧
      SGEAction.callQsub ["qsub", extraOptions, "-notify", "-N", jobName,
          "./submit_" ++ jobName ++ ".sh"] ∈ (submit_job extraOptions command jobName true).1 ∧
      (submit_job extraOptions command jobName false).2 = none ∧
      (submit_job extraOptions command jobName false).1 =
        (submit_job extraOptions command jobName true).1 ++
          [SGEAction.removeFile ("./submit_" ++ jobName ++ ".sh")] := by
  intro extraOptions command jobName
  refine ⟨rfl, ?_, rfl, rfl⟩
  simp [submit_job]

/-- C8: the total-count query command is built with no space before the
queue option, so for a non-empty queue name the option `-q` is glued onto
the username and the command is not the well-formed, queue-scoped query the
claim describes; the name-count query by contrast does separate it, and with
an empty queue name the command is scoped to the principal only. -/
theorem C8_code_bug :
    qstat_total_command "alice" "long.q" = "qstat -u alice-q long.q" ∧
    pyFindHit (qstat_total_command "alice" "long.q") " -q" = false ∧
    pyFindHit (qstat_name_command "alice" "long.q") " -q" = true ∧
    qstat_total_command "alice" "" = "qstat -u alice" := by
  refine ⟨rfl, ?_, ?_, rfl⟩ <;> decide

/-- C10: `get_jobs_in_queue_name` counts every raw output line containing
the fragment, markup and header lines included; on the concrete structured
listing `listingC10`, whose only job is named `alpha`, the fragment `job`
occurs on 4 markup lines, so the result 4 exceeds the number 0 of jobs
whose names contain the fragment. -/
theorem C10_raw_line_count :
    (∀ (lines : List String) (fragment : String),
        get_jobs_in_queue_name lines fragment =
          (List.filter (fun l => pyFindHit l fragment) lines).length) ∧
    get_jobs_in_queue_name listingC10 "job" = 4 ∧
    (List.filter (fun n => pyFindHit n "job") jobNamesC10).length = 0 ∧
    (List.filter (fun n => pyFindHit n "job") jobNamesC10).length <
      get_jobs_in_queue_name listingC10 "job" := by
  refine ⟨?_, rfl, rfl, ?_⟩
  · intro lines fragment
    exact get_jobs_in_queue_name_eq_filter lines fragment
  · decide

lemma sjwrLoop_subs (maximumJobs : Int) (counts : Nat → Int) (c j : String) :
    ∀ (fuel t t2 s : Nat) (subs : List (String × String)),
      sjwrLoop maximumJobs counts c j t fuel = some (t2, s, subs) → subs = [(c, j)] := by
  intro fuel
  induction fuel with
  | zero => intro t t2 s subs h; simp [sjwrLoop] at h
  | succ f ih =>
    intro t t2 s subs h
    simp only [sjwrLoop] at h
    by_cases hc : counts t < maximumJobs
    · rw [if_pos hc] at h
      simp only [Option.some.injEq, Prod.mk.injEq] at h
      exact h.2.2.symm
    · rw [if_neg hc] at h
      cases heq : sjwrLoop maximumJobs counts c j (t + 1) f with
      | none => rw [heq] at h; cases h
      | some trip =>
        obtain ⟨t2b, s2, subs2⟩ := trip
        rw [heq] at h
        simp only [Option.some.injEq, Prod.mk.injEq] at h
        rw [← h.2.2]
        exact ih (t + 1) t2b s2 subs2 heq

lemma sjwrLoop_first_admit (maximumJobs : Int) (counts : Nat → Int) (c j : String) :
    ∀ (fuel t k : Nat), t ≤ k → (∀ i, t ≤ i → i < k → maximumJobs ≤ counts i) →
      counts k < maximumJobs → k - t < fuel →
      sjwrLoop maximumJobs counts c j t fuel = some (k + 1, k - t, [(c, j)]) := by
  intro fuel
  induction fuel with
  | zero => intro t k _ _ _ hf; omega
  | succ f ih =>
    intro t k htk hpre hk hf
    by_cases hteq : t = k
    · subst hteq
      simp [sjwrLoop, if_pos hk]
    · have htlt : t < k := lt_of_le_of_ne htk hteq
      have hnot : ¬ counts t < maximumJobs := not_lt.mpr (hpre t le_rfl htlt)
      have hrec := ih (t + 1) k htlt (fun i h1 h2 => hpre i (by omega) h2) hk (by omega)
      have harith : k - (t + 1) + 1 = k - t := by omega
      simp only [sjwrLoop, if_neg hnot, hrec, harith]

/-- C1 counterexample: with ceiling 1, the stub counts 5, 0, 0, … first fall
below the ceiling at step 1, so the claim predicts 1 poll and 1 sleep; the
code makes an extra initial poll whose value is unused, then admits on the
first loop poll, so it submits after 2 polls with 0 sleeps. -/
theorem C1_counterexample :
    exCountsC1 0 ≥ 1 ∧ exCountsC1 1 < 1 ∧
    submit_job_when_ready 1 exCountsC1 "cmd" "jn" 0 10 = some (2, 0, [("cmd", "jn")]) ∧
    ((2 == 1) = false) ∧ ((0 == 1) = false) := by
  refine ⟨by decide, by decide, rfl, rfl, rfl⟩

/-- C1 (amended): the call polls the total count once before the loop, for
the verbose report only, so decisions are taken on the counts from step 1
onward.  For every ceiling N >= 1, if the counts at steps 1..k-1 are at
least N and the count at step k (k >= 1) is below N, then
`submit_job_when_ready` submits exactly once, makes k + 1 total-count polls
(the poll clock ends at k + 1 having started at 0), and sleeps exactly
k - 1 times. -/
theorem C1_amended (N : Int) (_hN : 1 ≤ N) (counts : Nat → Int) (c j : String) (k fuel : Nat)
    (hk : 1 ≤ k) (hpre : ∀ i, 1 ≤ i → i < k → N ≤ counts i) (hat : counts k < N)
    (hfuel : k ≤ fuel) :
    submit_job_when_ready N counts c j 0 fuel = some (k + 1, k - 1, [(c, j)]) := by
  unfold submit_job_when_ready
  exact sjwrLoop_first_admit N counts c j fuel 1 k hk (fun i h1 h2 => hpre i h1 h2) hat (by omega)

/-- Witness for C1: ceiling 1 with counts 3, 3, 0, 0, …: first admissible
loop poll at step 2, so 3 polls and 1 sleep. -/
theorem C1_witness :
    submit_job_when_ready 1 exCountsC1W "c" "j" 0 5 = some (3, 1, [("c", "j")]) := by
  have h := C1_amended 1 (by decide) exCountsC1W "c" "j" 2 5 (by decide)
    (fun i h1 h2 => by
      have hi : i = 1 := by omega
      subst hi
      decide)
    (by decide) (by decide)
  exact h

/-- C3 counterexample: with `maximum_jobs = 0` the claim says no stub can
make the code submit; but `get_jobs_in_queue` returns -1 on a one-line
listing, and a stub returning that count satisfies -1 < 0, so the code
submits on the first loop poll. -/
theorem C3_counterexample :
    exCountsC3 0 = -1 ∧
    submit_job_when_ready 0 exCountsC3 "cmd" "jn" 0 5 = some (2, 0, [("cmd", "jn")]) := by
  exact ⟨rfl, rfl⟩

lemma sjwrLoop_nonneg_never (counts : Nat → Int) (h : ∀ n, 0 ≤ counts n) (c j : String) :
    ∀ (fuel t : Nat), sjwrLoop 0 counts c j t fuel = none := by
  intro fuel
  induction fuel with
  | zero => intro t; rfl
  | succ f ih =>
    intro t
    have hnot : ¬ counts t < 0 := not_lt.mpr (h t)
    simp only [sjwrLoop, if_neg hnot, ih (t + 1)]

/-- C3 (amended): with `maximum_jobs = 0` and any stub returning nonnegative
counts (as genuine queue listings other than one-line ones produce),
`submit_job_when_ready` performs no submission within any bounded number of
loop iterations: every fuel bound yields `none`. -/
theorem C3_amended (counts : Nat → Int) (h : ∀ n, 0 ≤ counts n) (c j : String) (t fuel : Nat) :
    submit_job_when_ready 0 counts c j t fuel = none := by
  unfold submit_job_when_ready
  exact sjwrLoop_nonneg_never counts h c j fuel (t + 1)

/-- Witness for C3: the constant-zero stub never admits with ceiling 0. -/
theorem C3_witness :
    submit_job_when_ready 0 (fun _ => (0 : Int)) "c" "j" 0 4 = none := by
  exact C3_amended (fun _ => (0 : Int)) (fun _ => le_refl 0) "c" "j" 0 4

lemma sjlLoop_subs (maximumJobs : Int) (counts : Nat → Int) (jobName : String) (fuel : Nat) :
    ∀ (commandList : List String) (t t2 s : Nat) (subs : List (String × String)),
      sjlLoop maximumJobs counts jobName fuel t commandList = some (t2, s, subs) →
      subs = List.map (fun c => (c, jobName)) commandList := by
  intro commandList
  induction commandList with
  | nil =>
    intro t t2 s subs h
    simp only [sjlLoop, Option.some.injEq, Prod.mk.injEq] at h
    rw [← h.2.2]
    rfl
  | cons c rest ih =>
    intro t t2 s subs h
    cases h1 : submit_job_when_ready maximumJobs counts c jobName t fuel with
    | none => simp only [sjlLoop, h1] at h; cases h
    | some trip1 =>
      obtain ⟨t1, s1, subs1⟩ := trip1
      cases h2 : sjlLoop maximumJobs counts jobName fuel t1 rest with
      | none => simp only [sjlLoop, h1, h2] at h; cases h
      | some trip2 =>
        obtain ⟨t2b, s2, subs2⟩ := trip2
        simp only [sjlLoop, h1, h2, Option.some.injEq, Prod.mk.injEq] at h
        have e1 : subs1 = [(c, jobName)] :=
          sjwrLoop_subs maximumJobs counts c jobName fuel (t + 1) t1 s1 subs1 h1
        have e2 : subs2 = List.map (fun x => (x, jobName)) rest := ih t1 t2b s2 subs2 h2
        rw [← h.2.2, e1, e2]
        rfl

/-- C4: whenever `submit_job_list` returns, its submissions are exactly one
per command, in input order, each with the batch job name; concretely,
three commands with the queue count always 0 (below the default ceiling
100) give exactly the three submissions in order. -/
theorem C4_submit_list :
    (∀ (maximumJobs : Int) (counts : Nat → Int) (drainCounts : Nat → Nat)
        (commandList : List String) (jobName : String) (w : Bool) (fuel : Nat)
        (subs : List (String × String)) (p : Nat),
        submit_job_list maximumJobs counts drainCounts commandList jobName w fuel =
          some (subs, p) →
        subs = List.map (fun c => (c, jobName)) commandList) ∧
    submit_job_list 100 (fun _ => 0) (fun _ => 0) ["cmd1", "cmd2", "cmd3"] "job" true 10 =
      some ([("cmd1", "job"), ("cmd2", "job"), ("cmd3", "job")], 1) := by
  constructor
  · intro maximumJobs counts drainCounts commandList jobName w fuel subs p h
    unfold submit_job_list at h
    cases h1 : sjlLoop maximumJobs counts jobName fuel 0 commandList with
    | none => rw [h1] at h; cases h
    | some trip =>
      obtain ⟨t2, s2, subs2⟩ := trip
      rw [h1] at h
      have e2 : subs2 = List.map (fun c => (c, jobName)) commandList :=
        sjlLoop_subs maximumJobs counts jobName fuel commandList 0 t2 s2 subs2 h1
      cases w with
      | false =>
        simp only [if_neg Bool.false_ne_true] at h
        simp only [Option.some.injEq, Prod.mk.injEq] at h
        rw [← h.1]
        exact e2
      | true =>
        simp only [if_true] at h
        cases h3 : drainLoop drainCounts 0 fuel with
        | none => rw [h3] at h; cases h
        | some pr =>
          obtain ⟨polls, sleeps⟩ := pr
          rw [h3] at h
          simp only [Option.some.injEq, Prod.mk.injEq] at h
          rw [← h.1]
          exact e2
  · rfl

/-- Witness for C4: a one-command batch with count stream 0 submits exactly
that command with the batch name. -/
theorem C4_witness :
    submit_job_list 100 (fun _ => 0) (fun _ => 0) ["a"] "jn" false 5 = some ([("a", "jn")], 0) ∧
    [("a", "jn")] = List.map (fun c => (c, "jn")) ["a"] := by
  refine ⟨rfl, ?_⟩
  exact C4_submit_list.1 100 (fun _ => 0) (fun _ => 0) ["a"] "jn" false 5 [("a", "jn")] 0 rfl

lemma drainLoop_spec (drainCounts : Nat → Nat) :
    ∀ (fuel t polls sleeps : Nat), drainLoop drainCounts t fuel = some (polls, sleeps) →
      sleeps + 1 = polls ∧ drainCounts (t + polls - 1) = 0 ∧
        ∀ i, i + 1 < polls → 0 < drainCounts (t + i) := by
  intro fuel
  induction fuel with
  | zero => intro t polls sleeps h; cases h
  | succ f ih =>
    intro t polls sleeps h
    simp only [drainLoop] at h
    by_cases hc : drainCounts t > 0
    · rw [if_pos hc] at h
      cases h2 : drainLoop drainCounts (t + 1) f with
      | none => rw [h2] at h; cases h
      | some pr =>
        obtain ⟨p2, s2⟩ := pr
        rw [h2] at h
        simp only [Option.some.injEq, Prod.mk.injEq] at h
        obtain ⟨hp, hs⟩ := h
        have hrec := ih (t + 1) p2 s2 h2
        refine ⟨by omega, ?_, ?_⟩
        · have : t + 1 + p2 - 1 = t + polls - 1 := by omega
          rw [← this]
          exact hrec.2.1
        · intro i hi
          cases i with
          | zero => simpa using hc
          | succ i2 =>
            have : t + (i2 + 1) = t + 1 + i2 := by omega
            rw [this]
            exact hrec.2.2 i2 (by omega)
    · rw [if_neg hc] at h
      simp only [Option.some.injEq, Prod.mk.injEq] at h
      obtain ⟨hp, hs⟩ := h
      refine ⟨by omega, ?_, by omega⟩
      have h0 : drainCounts t = 0 := by omega
      have : t + polls - 1 = t := by omega
      rw [this]
      exact h0

/-- C5: the drain phase of `submit_job_list` re-polls the name-fragment
count while it is positive, sleeping between polls, and returns only once a
count of 0 has been observed: whenever the drain loop finishes with `polls`
polls it slept `polls - 1` times, the last observed count is 0 and every
earlier one is positive; concretely, a batch of one command with drain
counts 2, 1, 0 drains after exactly 3 polls. -/
theorem C5_drain :
    (∀ (drainCounts : Nat → Nat) (fuel t polls sleeps : Nat),
        drainLoop drainCounts t fuel = some (polls, sleeps) →
        sleeps + 1 = polls ∧ drainCounts (t + polls - 1) = 0 ∧
          ∀ i, i + 1 < polls → 0 < drainCounts (t + i)) ∧
    submit_job_list 100 (fun _ => 0) exDrain ["c"] "jn" true 10 = some ([("c", "jn")], 3) := by
  constructor
  · intro drainCounts fuel t polls sleeps h
    exact drainLoop_spec drainCounts fuel t polls sleeps h
  · rfl

/-- Witness for C5: on the drain stub 2, 1, 0 the loop reports 3 polls and
2 sleeps, the count observed at the last poll is 0, and the first two
observed counts are positive. -/
theorem C5_witness :
    (2 + 1 = 3 ∧ exDrain (0 + 3 - 1) = 0 ∧ 0 < exDrain (0 + 0) ∧ 0 < exDrain (0 + 1)) ∧
    submit_job_list 100 (fun _ => 0) exDrain ["c"] "jn" true 10 = some ([("c", "jn")], 3) := by
  have h := C5_drain.1 exDrain 10 0 3 2 rfl
  exact ⟨⟨h.1, h.2.1, h.2.2 0 (by decide), h.2.2 1 (by decide)⟩, C5_drain.2⟩

lemma drainLoop_polls_pos (drainCounts : Nat → Nat) :
    ∀ (fuel t polls sleeps : Nat), drainLoop drainCounts t fuel = some (polls, sleeps) →
      1 ≤ polls := by
  intro fuel t polls sleeps h
  have := drainLoop_spec drainCounts fuel t polls sleeps h
  omega

lemma C9_aux (maximumJobs : Int) (counts : Nat → Int) (drainCounts : Nat → Nat)
    (jobName : String) (fuel : Nat) (w : Bool) (subs : List (String × String)) (p : Nat)
    (h : submit_job_list maximumJobs counts drainCounts [] jobName w fuel = some (subs, p)) :
    subs = [] := by
  unfold submit_job_list at h
  simp only [sjlLoop] at h
  cases w with
  | false =>
    simp only [if_neg Bool.false_ne_true, Option.some.injEq, Prod.mk.injEq] at h
    exact h.1.symm
  | true =>
    simp only [if_true] at h
    cases h3 : drainLoop drainCounts 0 fuel with
    | none => rw [h3] at h; cases h
    | some pr =>
      obtain ⟨polls, sleeps⟩ := pr
      rw [h3] at h
      simp only [Option.some.injEq, Prod.mk.injEq] at h
      exact h.1.symm

/-- C9: on an empty command list `submit_job_list` performs no submission
whatever the flags; with `wait_for_completion` it still runs the drain
check, returning after a single poll when the name-fragment count is
already 0, and polling at least twice when unrelated entries make the first
count positive. -/
theorem C9_empty_batch (maximumJobs : Int) (counts : Nat → Int) (drainCounts : Nat → Nat)
    (jobName : String) (fuel : Nat) :
    (∀ (w : Bool) (subs : List (String × String)) (p : Nat),
        submit_job_list maximumJobs counts drainCounts [] jobName w fuel = some (subs, p) →
        subs = []) ∧
    (drainCounts 0 = 0 →
        submit_job_list maximumJobs counts drainCounts [] jobName true (fuel + 1) =
          some ([], 1)) ∧
    (0 < drainCounts 0 →
        ∀ (subs : List (String × String)) (p : Nat),
          submit_job_list maximumJobs counts drainCounts [] jobName true fuel = some (subs, p) →
          subs = [] ∧ 2 ≤ p) := by
  refine ⟨?_, ?_, ?_⟩
  · intro w subs p h
    exact C9_aux maximumJobs counts drainCounts jobName fuel w subs p h
  · intro h0
    unfold submit_job_list
    simp only [sjlLoop, if_true]
    have hnot : ¬ drainCounts 0 > 0 := by omega
    simp only [drainLoop, if_neg hnot]
  · intro hpos subs p h
    refine ⟨C9_aux maximumJobs counts drainCounts jobName fuel true subs p h, ?_⟩
    unfold submit_job_list at h
    simp only [sjlLoop, if_true] at h
    cases h3 : drainLoop drainCounts 0 fuel with
    | none => rw [h3] at h; cases h
    | some pr =>
      obtain ⟨polls, sleeps⟩ := pr
      rw [h3] at h
      simp only [Option.some.injEq, Prod.mk.injEq] at h
      cases fuel with
      | zero => cases h3
      | succ f =>
        simp only [drainLoop, if_pos hpos] at h3
        cases h4 : drainLoop drainCounts 1 f with
        | none => rw [h4] at h3; cases h3
        | some pr2 =>
          obtain ⟨p2, s2⟩ := pr2
          rw [h4] at h3
          simp only [Option.some.injEq, Prod.mk.injEq] at h3
          have hp2 := drainLoop_polls_pos drainCounts f 1 p2 s2 h4
          omega

/-- Witness for C9: with all drain counts 0 the empty batch returns after
one drain poll; with the drain stub 2, 1, 0 it returns after 3 polls, at
least 2. -/
theorem C9_witness :
    submit_job_list 7 (fun _ => (0 : Int)) (fun _ => (0 : Nat)) [] "j" true 4 = some ([], 1) ∧
    ([] : List (String × String)) = [] ∧ 2 ≤ 3 := by
  refine ⟨?_, ?_⟩
  · exact (C9_empty_batch 7 (fun _ => (0 : Int)) (fun _ => (0 : Nat)) "j" 3).2.1 rfl
  · exact (C9_empty_batch 7 (fun _ => (0 : Int)) exDrain "j" 10).2.2 (by decide) [] 3 rfl

end SubmitSGE
